import Mathlib

/-!
Shallow embedding of the pgf2json PGF runtime (src/lib.rs): the grammar
data model, the query surface, the linearizer, the chart parser and the
binary decoder.  Modelling conventions:
* Rust `HashMap` is modelled as an insertion-ordered association list and
  `HashSet` as a duplicate-free list; Rust's run-time iteration order is
  unspecified, insertion order is the model's choice.
* `u8`/`u16`/`u32` become `Nat`, `i32` becomes `Int`; the `as usize`
  cast is modelled exactly as reduction modulo 2 to the 64th power.
* `f64`/`f32` payloads are carried as their raw big-endian bit patterns
  (`Nat`); the code never inspects them.
* Fallible code returns `Except`; Rust panics (out-of-bounds indexing,
  `expect`) are modelled by a dedicated `POutcome.panic` constructor.
-/

namespace Pgf2Json

/-- Association list standing in for Rust `HashMap` (insertion order kept). -/
abbrev AList (α β : Type) := List (α × β)

/-- `HashMap::get`. -/
def alookup {α β : Type} [DecidableEq α] : AList α β → α → Option β
  | [], _ => none
  | (k', v) :: rest, k => if k' = k then some v else alookup rest k

/-- `HashMap::insert` (replace the value if the key exists, else append). -/
def ainsert {α β : Type} [DecidableEq α] : AList α β → α → β → AList α β
  | [], k, v => [(k, v)]
  | (k', v') :: rest, k, v =>
    if k' = k then (k, v) :: rest else (k', v') :: ainsert rest k v

/-- `map.entry(k).or_insert_with(Vec::new).push(b)`. -/
def entryPush {α β : Type} [DecidableEq α] : AList α (List β) → α → β → AList α (List β)
  | [], k, b => [(k, [b])]
  | (k', l) :: rest, k, b =>
    if k' = k then (k', l ++ [b]) :: rest else (k', l) :: entryPush rest k b

/-- `HashSet::insert`. -/
def hsInsert {α : Type} [DecidableEq α] (s : List α) (a : α) : List α :=
  if a ∈ s then s else s ++ [a]

/-- `CId` is a wrapper around a `String` (`struct CId(String)`). -/
abbrev CId := String

/-- `struct Language(CId)`. -/
abbrev Language := CId

/-- `enum Literal { Str(String), Int(i32), Flt(f64) }`; the float payload is
kept as raw bits. -/
inductive Literal : Type where
  | Str : String → Literal
  | Int : Int → Literal
  | Flt : Nat → Literal
deriving DecidableEq

/-- `enum Binding { Explicit(String), Implicit(String) }`. -/
inductive Binding : Type where
  | Explicit : String → Binding
  | Implicit : String → Binding

mutual
/-- `enum Expr` of src/lib.rs; `Float`/`Double` payloads kept as raw bits. -/
inductive Expr : Type where
  | Abs : Binding → CId → Expr → Expr
  | App : Expr → Expr → Expr
  | Fun : CId → Expr
  | Str : String → Expr
  | Int : Int → Expr
  | Float : Nat → Expr
  | Double : Nat → Expr
  | Meta : Expr
  | Typed : Expr → Ty → Expr
  | ImplArg : Expr → Expr

/-- `struct Type { hypos, category, exprs }` (named `Ty` since `Type` is
reserved in Lean). -/
inductive Ty : Type where
  | mk : List Hypo → CId → List Expr → Ty

/-- `struct Hypo { binding, ty }`. -/
inductive Hypo : Type where
  | mk : Binding → Ty → Hypo
end

/-- Accessor for the `hypos` field of `Type`. -/
def Ty.hypos : Ty → List Hypo
  | .mk h _ _ => h

/-- Accessor for the `category` field of `Type`. -/
def Ty.category : Ty → CId
  | .mk _ c _ => c

/-- Accessor for the `exprs` field of `Type`. -/
def Ty.exprs : Ty → List Expr
  | .mk _ _ e => e

/-- `enum Pattern`. -/
inductive Pattern : Type where
  | PVar : CId → Pattern
  | PApp : CId → List Pattern → Pattern

/-- `struct Equation { patterns, result }`. -/
structure Equation : Type where
  patterns : List Pattern
  result : Expr

/-- `enum Instr` (placeholder with no variants in the source). -/
inductive Instr : Type where

/-- `struct Function { ty, weight, equations, prob }`; `prob` is the raw
f64 bit pattern. -/
structure Function : Type where
  ty : Ty
  weight : Int
  equations : Option (List Equation × List (List Instr))
  prob : Nat

/-- `struct Category { hypos, funs }`. -/
structure Category : Type where
  hypos : List Hypo
  funs : List (Nat × CId)

/-- `struct Abstract { funs, cats }`. -/
structure Abstract : Type where
  funs : AList CId Function
  cats : AList CId Category

/-- `struct CncCat { start, end }`. -/
structure CncCat : Type where
  start : Int
  end_ : Int
deriving DecidableEq

/-- `struct CncFun { name, lins }`. -/
structure CncFun : Type where
  name : CId
  lins : List Int
deriving DecidableEq

/-- `struct PArg { hypos, fid }`. -/
structure PArg : Type where
  hypos : List Int
  fid : Int
deriving DecidableEq

/-- `enum Production { Apply { fid, args }, Coerce { arg } }`. -/
inductive Production : Type where
  | Apply : Int → List PArg → Production
  | Coerce : Int → Production
deriving DecidableEq

mutual
/-- `enum Symbol` of src/lib.rs. -/
inductive Symbol : Type where
  | SymCat : Int → Int → Symbol
  | SymLit : Int → Int → Symbol
  | SymVar : Int → Int → Symbol
  | SymKS : String → Symbol
  | SymKP : List Symbol → List Alt → Symbol
  | SymNE : Symbol

/-- `struct Alt { symbols, tokens }`. -/
inductive Alt : Type where
  | mk : List Symbol → List String → Alt
end

/-- `struct Concrete` of src/lib.rs. -/
structure Concrete : Type where
  cflags : AList CId Literal
  productions : AList Int (List Production)
  cncfuns : List CncFun
  sequences : List (List Symbol)
  cnccats : AList CId CncCat
  total_cats : Int

/-- `struct Pgf` of src/lib.rs. -/
structure Pgf : Type where
  absname : CId
  concretes : AList Language Concrete
  abstract : Abstract
  startcat : CId
  flags : AList CId Literal

/-- `enum PgfError` of src/lib.rs (the `Io` payload is kept as a message). -/
inductive PgfError : Type where
  | Io : String → PgfError
  | UnknownLanguage : String → PgfError
  | DeserializeError : String → PgfError
  | SerializeError : String → PgfError
  | TypeCheckError : String → PgfError
  | ParseError : String → PgfError
deriving DecidableEq

/-- `cid::mk_cid`. -/
def mk_cid (s : String) : CId := s

/-- `cid::show_cid`. -/
def show_cid (c : CId) : String := c

/-- `cid::wild_cid`. -/
def wild_cid : CId := "*"

/-- `cid::read_cid`. -/
def read_cid (s : String) : Option CId :=
  if s = "" then none else some s

/-- Rust `i as usize` on an `i32` value: reduction modulo 2 to the 64th
power (negative values wrap to huge indices). -/
def usizeIdx (i : Int) : Nat :=
  (i % (18446744073709551616 : Int)).toNat

/-- Rust `s.replace('_', "-")`: every underscore becomes a hyphen. -/
def replaceUnderscores (s : String) : String :=
  String.mk (s.data.map (fun c => if c = '_' then '-' else c))

/-- `language::language_code` (src/lib.rs lines 210-219). -/
def language_code (pgf : Pgf) (lang : Language) : Option String :=
  (alookup pgf.concretes lang).bind (fun cnc =>
    (alookup cnc.cflags (mk_cid "language")).bind (fun lit =>
      match lit with
      | .Str s => some (replaceUnderscores s)
      | _ => none))

/-- `types::start_cat`: the ground type over the grammar's start category. -/
def start_cat (pgf : Pgf) : Ty :=
  Ty.mk [] pgf.startcat []

/-- The `SymKS` token of a symbol, if any (the linearizer's filter). -/
def symKSTok : Symbol → Option String
  | .SymKS s => some s
  | _ => none

/-- `linearize` (src/lib.rs lines 1082-1107): for `Fun`, the first
`CncFun` with that name is located and the `SymKS` tokens of all the
sequences addressed by its `lins` entries (out-of-range entries are
skipped by `filter_map`) are joined by single spaces; `App` joins the two
sides with a space; anything else is an error.  In the source the
concrete lookup happens once before the dispatch on the expression; the
pure lookup is replicated into every branch here, which is observably
identical. -/
def linearize (pgf : Pgf) (lang : Language) : Expr → Except PgfError String
  | .Fun cid =>
    match alookup pgf.concretes lang with
    | none => .error (.UnknownLanguage (show_cid lang))
    | some cnc =>
      match cnc.cncfuns.find? (fun f => f.name = cid) with
      | some f =>
        .ok (String.intercalate " "
          ((f.lins.filterMap (fun i => cnc.sequences.get? (usizeIdx i))).flatMap
            (fun seq => seq.filterMap symKSTok)))
      | none => .error (.ParseError "Function not found in concrete syntax")
  | .App e1 e2 =>
    match alookup pgf.concretes lang with
    | none => .error (.UnknownLanguage (show_cid lang))
    | some _ =>
      match linearize pgf lang e1 with
      | .error er => .error er
      | .ok s1 =>
        match linearize pgf lang e2 with
        | .error er => .error er
        | .ok s2 => .ok (s1 ++ " " ++ s2)
  | _ =>
    match alookup pgf.concretes lang with
    | none => .error (.UnknownLanguage (show_cid lang))
    | some _ => .error (.ParseError "Unsupported expression for linearization")

/-- The linearizer as the (amended) specification words it: for `Fun f`,
each linearization field of the first `CncFun` named `f` contributes, when
it addresses a sequence of the concrete, the `SymKS` tokens of that
sequence; the contributions are concatenated in field order and joined by
single spaces. -/
def linSpec (pgf : Pgf) (lang : Language) : Expr → Except PgfError String
  | .Fun cid =>
    match alookup pgf.concretes lang with
    | none => .error (.UnknownLanguage (show_cid lang))
    | some cnc =>
      match cnc.cncfuns.find? (fun f => f.name = cid) with
      | some f =>
        .ok (String.intercalate " "
          (List.flatten (f.lins.map (fun i =>
            ((cnc.sequences.get? (usizeIdx i)).getD []).filterMap symKSTok))))
      | none => .error (.ParseError "Function not found in concrete syntax")
  | .App e1 e2 =>
    match alookup pgf.concretes lang with
    | none => .error (.UnknownLanguage (show_cid lang))
    | some _ =>
      match linSpec pgf lang e1 with
      | .error er => .error er
      | .ok s1 =>
        match linSpec pgf lang e2 with
        | .error er => .error er
        | .ok s2 => .ok (s1 ++ " " ++ s2)
  | _ =>
    match alookup pgf.concretes lang with
    | none => .error (.UnknownLanguage (show_cid lang))
    | some _ => .error (.ParseError "Unsupported expression for linearization")

/-- `BracketedString` of src/lib.rs. -/
inductive BracketedString : Type where
  | Leaf : String → BracketedString
  | Branch : CId → List BracketedString → BracketedString

/-- `parse::Item`: a chart item. -/
structure Item : Type where
  fid : Int
  seqid : Int
  dot : Nat
  args : List (Int × Expr)
  tree : Option Expr

/-- `parse::ParseState`. -/
structure ParseState : Type where
  pgf : Pgf
  lang : Language
  typ : Ty
  activeItems : AList Int (List Item)
  passiveItems : AList Int (List Item)
  tokens : List String
  currentPos : Nat

/-- `parse::ParseOutput`. -/
inductive ParseOutput : Type where
  | ParseOk : List Expr → ParseOutput
  | ParseFail : ParseOutput

/-- Outcome of a Rust call that can succeed, return `Err`, or panic. -/
inductive POutcome (α : Type) : Type where
  | ok : α → POutcome α
  | err : PgfError → POutcome α
  | panic : String → POutcome α

/-- `parse::init_state` (src/lib.rs lines 285-314). -/
def init_state (pgf : Pgf) (lang : Language) (typ : Ty) : Except PgfError ParseState :=
  match alookup pgf.concretes lang with
  | none => .error (.UnknownLanguage (show_cid lang))
  | some cnc =>
    match alookup cnc.cnccats typ.category with
    | none => .error (.ParseError ("Category not found: " ++ show_cid typ.category))
    | some cat =>
      let catId := cat.start
      let activeItems :=
        match alookup cnc.productions catId with
        | none => ([] : AList Int (List Item))
        | some prods =>
          prods.foldl (fun acc prod =>
            match prod with
            | .Apply fid _ =>
              entryPush acc catId
                { fid := fid
                  seqid := (((cnc.cncfuns.get? (usizeIdx fid)).map
                    (fun f => ((f.lins.get? 0).getD 0))).getD 0)
                  dot := 0
                  args := []
                  tree := none }
            | .Coerce _ => acc) []
      .ok { pgf := pgf, lang := lang, typ := typ, activeItems := activeItems,
            passiveItems := [], tokens := [], currentPos := 0 }

/-- `parse::build_tree`: fold the argument trees onto `Fun(name)` with
`App`, in order. -/
def build_tree (cf : CncFun) (args : List (Int × Expr)) : Expr :=
  args.foldl (fun t a => Expr.App t a.2) (Expr.Fun cf.name)

/-- One active item of `next_state`'s main loop (src/lib.rs lines
325-369): the accumulator carries the `new_active` and `new_passive`
tables; the error case is the panic message of the out-of-bounds
`cnc.cncfuns[item.fid as usize]` indexing in the completion branch. -/
def processItem (cnc : Concrete) (lastTok : String) (catId : Int) (item : Item)
    (acc : AList Int (List Item) × AList Int (List Item)) :
    Except String (AList Int (List Item) × AList Int (List Item)) :=
  match cnc.sequences.get? (usizeIdx item.seqid) with
  | none => .ok acc
  | some seq =>
    if h : item.dot < seq.length then
      match seq.get ⟨item.dot, h⟩ with
      | .SymKS tok =>
        if tok = lastTok then
          .ok (entryPush acc.1 catId { item with dot := item.dot + 1 }, acc.2)
        else .ok acc
      | .SymCat _ nextFid =>
        match alookup acc.2 nextFid with
        | none => .ok acc
        | some passive =>
          .ok (passive.foldl (fun na pitem =>
            match pitem.tree with
            | some tree =>
              entryPush na catId
                { item with dot := item.dot + 1, args := item.args ++ [(nextFid, tree)] }
            | none => na) acc.1, acc.2)
      | _ => .ok acc
    else
      match cnc.cncfuns.get? (usizeIdx item.fid) with
      | none => .error "index out of bounds"
      | some cf =>
        .ok (acc.1, entryPush acc.2 catId { item with tree := some (build_tree cf item.args) })

/-- The full double loop over `state.active_items` in `next_state`. -/
def processItems (cnc : Concrete) (lastTok : String)
    (entries : AList Int (List Item))
    (init : AList Int (List Item) × AList Int (List Item)) :
    Except String (AList Int (List Item) × AList Int (List Item)) :=
  entries.foldlM (fun acc e =>
    e.2.foldlM (fun acc item => processItem cnc lastTok e.1 item acc) acc) init

/-- The coerce-propagation pass of `next_state` (src/lib.rs lines
372-391): purely accumulates new active items. -/
def coercePass (productions : AList Int (List Production))
    (newPassive : AList Int (List Item))
    (newActive : AList Int (List Item)) : AList Int (List Item) :=
  productions.foldl (fun na e =>
    e.2.foldl (fun na prod =>
      match prod with
      | .Coerce arg =>
        match alookup newPassive arg with
        | none => na
        | some passive =>
          passive.foldl (fun na pitem =>
            match pitem.tree with
            | some tree =>
              entryPush na e.1
                { fid := e.1, seqid := 0, dot := 0, args := [(arg, tree)], tree := none }
            | none => na) na
      | _ => na) na) newActive

/-- `parse::next_state` (src/lib.rs lines 316-397).  The `Language not
found` branch returns `Err`; the `tokens.last().unwrap()` and the
completion indexing are the two potential panics. -/
def next_state (state : ParseState) (token : String) : POutcome ParseState :=
  let tokens := state.tokens ++ [token]
  match alookup state.pgf.concretes state.lang with
  | none => .err (.ParseError "Language not found")
  | some cnc =>
    match tokens.getLast? with
    | none => .panic "called Option unwrap on a None value"
    | some lastTok =>
      match processItems cnc lastTok state.activeItems ([], state.passiveItems) with
      | .error msg => .panic msg
      | .ok acc =>
        .ok { state with
              activeItems := coercePass cnc.productions acc.2 acc.1
              passiveItems := acc.2
              tokens := tokens
              currentPos := state.currentPos + 1 }

/-- Advance a parse state over a list of tokens (the loop in the
top-level `parse`). -/
def run_tokens (state : ParseState) : List String → POutcome ParseState
  | [] => .ok state
  | t :: rest =>
    match next_state state t with
    | .ok st => run_tokens st rest
    | .err e => .err e
    | .panic m => .panic m

/-- `parse::expr_to_bracketed`. -/
def expr_to_bracketed : Expr → BracketedString
  | .Fun cid => .Leaf (show_cid cid)
  | .App e1 e2 => .Branch wild_cid [expr_to_bracketed e1, expr_to_bracketed e2]
  | _ => .Leaf ""

/-- The tree collection of `get_parse_output` (src/lib.rs lines 412-421):
passive items of the goal fid whose `dot` equals the length of their
sequence (0 when the sequence index is out of range) and whose tree is
set. -/
def collectTrees (cnc : Concrete) (passiveItems : AList Int (List Item)) (catId : Int) :
    List Expr :=
  match alookup passiveItems catId with
  | none => []
  | some items =>
    items.foldl (fun trees item =>
      match item.tree with
      | some tree =>
        if item.dot = (((cnc.sequences.get? (usizeIdx item.seqid)).map
            List.length).getD 0)
        then trees ++ [tree] else trees
      | none => trees) []

/-- The result assembly of `get_parse_output` (src/lib.rs lines 423-433). -/
def mkOutput (trees : List Expr) (cat : CId) : ParseOutput × BracketedString :=
  let bracketed :=
    if trees.isEmpty then BracketedString.Leaf ""
    else BracketedString.Branch cat (trees.map expr_to_bracketed)
  if trees.isEmpty then (.ParseFail, bracketed) else (.ParseOk trees, bracketed)

/-- `parse::get_parse_output` (src/lib.rs lines 407-434): the language
lookup uses `.expect` (a panic when absent); a missing category silently
falls back to fid 0 (`unwrap_or(0)`); the `depth` parameter is unused. -/
def get_parse_output (state : ParseState) (typ : Ty) (depth : Option Int) :
    POutcome (ParseOutput × BracketedString) :=
  let _maxDepth := depth.getD 2147483647
  match alookup state.pgf.concretes state.lang with
  | none => .panic "Language not found"
  | some cnc =>
    let catId := (((alookup cnc.cnccats typ.category).map CncCat.start).getD 0)
    .ok (mkOutput (collectTrees cnc state.passiveItems catId) typ.category)

/-- Helper of `splitWhitespace`: walk the characters, accumulating the
current token in reverse. -/
def splitWsAux : List Char → List Char → List String
  | [], cur => if cur.isEmpty then [] else [String.mk cur.reverse]
  | ch :: rest, cur =>
    if ch.isWhitespace then
      if cur.isEmpty then splitWsAux rest []
      else String.mk cur.reverse :: splitWsAux rest []
    else splitWsAux rest (ch :: cur)

/-- Rust `str::split_whitespace`: maximal runs of non-whitespace
characters, empties discarded. -/
def splitWhitespace (s : String) : List String :=
  splitWsAux s.data []

/-- Top-level `parse` (src/lib.rs lines 1033-1046). -/
def parse (pgf : Pgf) (lang : Language) (typ : Ty) (input : String) :
    POutcome (List Expr) :=
  match init_state pgf lang typ with
  | .error e => .err e
  | .ok st =>
    match run_tokens st (splitWhitespace input) with
    | .err e => .err e
    | .panic m => .panic m
    | .ok st =>
      match get_parse_output st typ (some 4) with
      | .err e => .err e
      | .panic m => .panic m
      | .ok out =>
        match out.1 with
        | .ParseOk trees => .ok trees
        | .ParseFail => .err (.ParseError "Parsing failed")

/-- `std::io::Cursor` over the input byte buffer. -/
structure Cursor : Type where
  data : List UInt8
  pos : Nat

/-- The byte `i` positions past the cursor, if present. -/
def byteAt (c : Cursor) (i : Nat) : Option UInt8 :=
  c.data.get? (c.pos + i)

/-- `read_u8`.  A failed read (end of data) leaves the cursor at the end
of the buffer, as `std::io::Read::read_exact` does on a `Cursor`. -/
def read_u8 (c : Cursor) : Except String Nat × Cursor :=
  match byteAt c 0 with
  | some b => (.ok b.toNat, { c with pos := c.pos + 1 })
  | none => (.error "failed to fill whole buffer", { c with pos := c.data.length })

/-- `read_u16::<BigEndian>`. -/
def read_u16 (c : Cursor) : Except String Nat × Cursor :=
  match byteAt c 0, byteAt c 1 with
  | some b0, some b1 =>
    (.ok (b0.toNat * 256 + b1.toNat), { c with pos := c.pos + 2 })
  | _, _ => (.error "failed to fill whole buffer", { c with pos := c.data.length })

/-- `read_u32::<BigEndian>`. -/
def read_u32 (c : Cursor) : Except String Nat × Cursor :=
  match byteAt c 0, byteAt c 1, byteAt c 2, byteAt c 3 with
  | some b0, some b1, some b2, some b3 =>
    (.ok (b0.toNat * 16777216 + b1.toNat * 65536 + b2.toNat * 256 + b3.toNat),
     { c with pos := c.pos + 4 })
  | _, _, _, _ => (.error "failed to fill whole buffer", { c with pos := c.data.length })

/-- Interpret a 32-bit big-endian value as a signed `i32`. -/
def i32_of (n : Nat) : Int :=
  if n < 2147483648 then (n : Int) else (n : Int) - 4294967296

/-- `read_i32::<BigEndian>`. -/
def read_i32 (c : Cursor) : Except String Int × Cursor :=
  match read_u32 c with
  | (.error e, c) => (.error e, c)
  | (.ok n, c) => (.ok (i32_of n), c)

/-- `read_f64::<BigEndian>`: 8 bytes kept as the raw bit pattern. -/
def read_f64bits (c : Cursor) : Except String Nat × Cursor :=
  if c.pos + 8 ≤ c.data.length then
    (.ok (((c.data.drop c.pos).take 8).foldl (fun n b => n * 256 + b.toNat) 0),
     { c with pos := c.pos + 8 })
  else (.error "failed to fill whole buffer", { c with pos := c.data.length })

/-- `read_exact` into a buffer of `n` bytes. -/
def read_bytes (c : Cursor) (n : Nat) : Except String (List UInt8) × Cursor :=
  if c.pos + n ≤ c.data.length then
    (.ok ((c.data.drop c.pos).take n), { c with pos := c.pos + n })
  else (.error "failed to fill whole buffer", { c with pos := c.data.length })

/-- Is the byte a UTF-8 continuation byte? -/
def isCont (b : UInt8) : Bool :=
  128 ≤ b.toNat && b.toNat < 192

/-- The payload of a continuation byte. -/
def contVal (b : UInt8) : Nat := b.toNat - 128

/-- `String::from_utf8` validation and decoding (strict: rejects stray
continuations, overlong forms, surrogates and out-of-range points). -/
def utf8Decode : List UInt8 → Option (List Char)
  | [] => some []
  | b :: rest =>
    if b.toNat < 128 then
      (utf8Decode rest).map (fun cs => Char.ofNat b.toNat :: cs)
    else if b.toNat < 194 then none
    else if b.toNat < 224 then
      match rest with
      | c1 :: rest2 =>
        if isCont c1 then
          (utf8Decode rest2).map
            (fun cs => Char.ofNat ((b.toNat - 192) * 64 + contVal c1) :: cs)
        else none
      | [] => none
    else if b.toNat < 240 then
      match rest with
      | c1 :: c2 :: rest2 =>
        if isCont c1 && isCont c2 then
          if (b.toNat - 224) * 4096 + contVal c1 * 64 + contVal c2 < 2048
              || (55296 ≤ (b.toNat - 224) * 4096 + contVal c1 * 64 + contVal c2
                  && (b.toNat - 224) * 4096 + contVal c1 * 64 + contVal c2 < 57344)
          then none
          else
            (utf8Decode rest2).map
              (fun cs =>
                Char.ofNat ((b.toNat - 224) * 4096 + contVal c1 * 64 + contVal c2) :: cs)
        else none
      | _ => none
    else if b.toNat < 245 then
      match rest with
      | c1 :: c2 :: c3 :: rest2 =>
        if isCont c1 && isCont c2 && isCont c3 then
          if (b.toNat - 240) * 262144 + contVal c1 * 4096 + contVal c2 * 64 + contVal c3
                < 65536
              || 1114111 <
                  (b.toNat - 240) * 262144 + contVal c1 * 4096 + contVal c2 * 64 + contVal c3
          then none
          else
            (utf8Decode rest2).map
              (fun cs =>
                Char.ofNat
                  ((b.toNat - 240) * 262144 + contVal c1 * 4096 + contVal c2 * 64
                    + contVal c3) :: cs)
        else none
      | _ => none
    else none

/-- `read_string` (src/lib.rs lines 883-897): u8 length prefix, then the
UTF-8 body. -/
def read_string (c : Cursor) : Except PgfError CId × Cursor :=
  match read_u8 c with
  | (.error e, c) => (.error (.DeserializeError ("Failed to read string length: " ++ e)), c)
  | (.ok len, c) =>
    match read_bytes c len with
    | (.error e, c) => (.error (.DeserializeError ("Failed to read string: " ++ e)), c)
    | (.ok bs, c) =>
      match utf8Decode bs with
      | none => (.error (.DeserializeError "Invalid UTF-8 string"), c)
      | some chars => (.ok (mk_cid (String.mk chars)), c)

/-- `read_string_16` (src/lib.rs lines 899-912): u16 length prefix. -/
def read_string_16 (c : Cursor) : Except PgfError CId × Cursor :=
  match read_u16 c with
  | (.error e, c) => (.error (.DeserializeError ("Failed to read string length: " ++ e)), c)
  | (.ok len, c) =>
    match read_bytes c len with
    | (.error e, c) => (.error (.DeserializeError ("Failed to read string: " ++ e)), c)
    | (.ok bs, c) =>
      match utf8Decode bs with
      | none => (.error (.DeserializeError "Invalid UTF-8 string"), c)
      | some chars => (.ok (mk_cid (String.mk chars)), c)

/-- `read_literal` (src/lib.rs lines 532-553). -/
def read_literal (c : Cursor) : Except PgfError Literal × Cursor :=
  match read_u8 c with
  | (.error e, c) => (.error (.DeserializeError ("Failed to read literal tag: " ++ e)), c)
  | (.ok tag, c) =>
    if tag = 0 then
      match read_string c with
      | (.error e, c) => (.error e, c)
      | (.ok s, c) => (.ok (.Str (show_cid s)), c)
    else if tag = 1 then
      match read_i32 c with
      | (.error e, c) => (.error (.DeserializeError ("Failed to read int: " ++ e)), c)
      | (.ok n, c) => (.ok (.Int n), c)
    else if tag = 2 then
      match read_f64bits c with
      | (.error e, c) => (.error (.DeserializeError ("Failed to read float: " ++ e)), c)
      | (.ok bits, c) => (.ok (.Flt bits), c)
    else (.error (.DeserializeError ("Unknown literal tag: " ++ toString tag)), c)

/-- The body loop of `read_flags`: both the key and the value are read
each round (Rust evaluates the whole tuple), and the loop breaks on the
first failure, keeping what was collected so far. -/
def readFlagsLoop : Nat → Cursor → AList CId Literal → AList CId Literal × Cursor
  | 0, c, acc => (acc, c)
  | n + 1, c, acc =>
    match read_string c with
    | (kr, c) =>
      match read_literal c with
      | (vr, c) =>
        match kr, vr with
        | .ok k, .ok v => readFlagsLoop n c (ainsert acc k v)
        | _, _ => (acc, c)

/-- `read_flags` (src/lib.rs lines 515-530): a failed count read yields an
empty table; errors in the body are caught (`if let`/`break`), never
propagated — the Rust function has no `Err` path at all. -/
def read_flags (c : Cursor) : AList CId Literal × Cursor :=
  match read_u16 c with
  | (.error _, c) => ([], c)
  | (.ok count, c) => readFlagsLoop count c []

/-- `read_type` (src/lib.rs lines 587-596): just a category name. -/
def read_type (c : Cursor) : Except PgfError Ty × Cursor :=
  match read_string c with
  | (.error e, c) => (.error e, c)
  | (.ok category, c) => (.ok (Ty.mk [] category []), c)

/-- `cats.entry(cat).or_insert_with(..).funs.push((0, fun_name))`. -/
def entryAddFun : AList CId Category → CId → CId → AList CId Category
  | [], cat, funName => [(cat, { hypos := [], funs := [(0, funName)] })]
  | (k, v) :: rest, cat, funName =>
    if k = cat then (k, { v with funs := v.funs ++ [(0, funName)] }) :: rest
    else (k, v) :: entryAddFun rest cat funName

/-- The body loop of `read_abstract`: any failed field read skips the
iteration (`if let` with no `else`), the loop continues. -/
def readAbsLoop :
    Nat → Cursor → AList CId Function → AList CId Category →
    (AList CId Function × AList CId Category) × Cursor
  | 0, c, funs, cats => ((funs, cats), c)
  | n + 1, c, funs, cats =>
    match read_string c with
    | (.error _, c) => readAbsLoop n c funs cats
    | (.ok funName, c) =>
      match read_type c with
      | (.error _, c) => readAbsLoop n c funs cats
      | (.ok funType, c) =>
        match read_i32 c with
        | (.error _, c) => readAbsLoop n c funs cats
        | (.ok weight, c) =>
          match read_f64bits c with
          | (.error _, c) => readAbsLoop n c funs cats
          | (.ok prob, c) =>
            readAbsLoop n c
              (ainsert funs funName
                { ty := funType, weight := weight, equations := none, prob := prob })
              (entryAddFun cats funType.category funName)

/-- `read_abstract` (src/lib.rs lines 555-585): no `Err` path. -/
def read_abstract (c : Cursor) : Abstract × Cursor :=
  match read_u32 c with
  | (.error _, c) => ({ funs := [], cats := [] }, c)
  | (.ok n, c) =>
    match readAbsLoop n c [] [] with
    | ((funs, cats), c) => ({ funs := funs, cats := cats }, c)

/-- `cursor.read_u32().unwrap_or(0)`. -/
def read_u32_or0 (c : Cursor) : Nat × Cursor :=
  match read_u32 c with
  | (.error _, c) => (0, c)
  | (.ok n, c) => (n, c)

/-- A count-bounded loop collecting the `Ok` results of `step` and
silently skipping its failures (`if let Ok(x) = step { push(x) }`). -/
def readListLoop {α : Type} (step : Cursor → Except PgfError α × Cursor) :
    Nat → Cursor → List α → List α × Cursor
  | 0, c, acc => (acc, c)
  | n + 1, c, acc =>
    match step c with
    | (.error _, c) => readListLoop step n c acc
    | (.ok a, c) => readListLoop step n c (acc ++ [a])

/-- `read_i32` wrapped as the element reader of fid/index lists. -/
def readI32Elem (c : Cursor) : Except PgfError Int × Cursor :=
  match read_i32 c with
  | (.error e, c) => (.error (.DeserializeError e), c)
  | (.ok n, c) => (.ok n, c)

/-- `read_parg` (src/lib.rs lines 749-762): failed hypo reads are
skipped; the final fid read propagates its error. -/
def read_parg (c : Cursor) : Except PgfError PArg × Cursor :=
  match read_u32_or0 c with
  | (hypoCount, c) =>
    match readListLoop readI32Elem hypoCount c [] with
    | (hypos, c) =>
      match read_i32 c with
      | (.error e, c) => (.error (.DeserializeError ("Failed to read parg fid: " ++ e)), c)
      | (.ok fid, c) => (.ok { hypos := hypos, fid := fid }, c)

/-- `read_production` (src/lib.rs lines 723-747). -/
def read_production (c : Cursor) : Except PgfError Production × Cursor :=
  match read_u8 c with
  | (.error e, c) => (.error (.DeserializeError ("Failed to read production tag: " ++ e)), c)
  | (.ok tag, c) =>
    if tag = 0 then
      match read_i32 c with
      | (.error e, c) => (.error (.DeserializeError ("Failed to read fid: " ++ e)), c)
      | (.ok fid, c) =>
        match read_u32_or0 c with
        | (argCount, c) =>
          match readListLoop read_parg argCount c [] with
          | (args, c) => (.ok (.Apply fid args), c)
    else if tag = 1 then
      match read_i32 c with
      | (.error e, c) => (.error (.DeserializeError ("Failed to read coerce arg: " ++ e)), c)
      | (.ok arg, c) => (.ok (.Coerce arg), c)
    else (.error (.DeserializeError ("Unknown production tag: " ++ toString tag)), c)

/-- The inner production-set loop of `read_productions`: failures are
skipped, successes are inserted into the `HashSet`. -/
def readProdSetLoop : Nat → Cursor → List Production → List Production × Cursor
  | 0, c, acc => (acc, c)
  | n + 1, c, acc =>
    match read_production c with
    | (.error _, c) => readProdSetLoop n c acc
    | (.ok p, c) => readProdSetLoop n c (hsInsert acc p)

/-- The outer loop of `read_productions`: a failed category-id read skips
the whole entry. -/
def readProductionsLoop :
    Nat → Cursor → AList Int (List Production) → AList Int (List Production) × Cursor
  | 0, c, acc => (acc, c)
  | n + 1, c, acc =>
    match read_i32 c with
    | (.error _, c) => readProductionsLoop n c acc
    | (.ok catId, c) =>
      match read_u32_or0 c with
      | (cnt, c) =>
        match readProdSetLoop cnt c [] with
        | (pset, c) => readProductionsLoop n c (ainsert acc catId pset)

/-- `read_productions` (src/lib.rs lines 701-721): no `Err` path. -/
def read_productions (c : Cursor) : AList Int (List Production) × Cursor :=
  match read_u32_or0 c with
  | (cnt, c) => readProductionsLoop cnt c []

/-- The body loop of `read_cncfuns`: a failed name read skips the entry;
failed lin reads are skipped individually. -/
def readCncFunsLoop : Nat → Cursor → List CncFun → List CncFun × Cursor
  | 0, c, acc => (acc, c)
  | n + 1, c, acc =>
    match read_string c with
    | (.error _, c) => readCncFunsLoop n c acc
    | (.ok name, c) =>
      match read_u32_or0 c with
      | (linCount, c) =>
        match readListLoop readI32Elem linCount c [] with
        | (lins, c) => readCncFunsLoop n c (acc ++ [{ name := name, lins := lins }])

/-- `read_cncfuns` (src/lib.rs lines 764-782): no `Err` path. -/
def read_cncfuns (c : Cursor) : List CncFun × Cursor :=
  match read_u32_or0 c with
  | (cnt, c) => readCncFunsLoop cnt c []

/-- The token-string element reader of `read_alt` (`show_cid` applied to
each successfully read string). -/
def readTokenElem (c : Cursor) : Except PgfError String × Cursor :=
  match read_string c with
  | (.error e, c) => (.error e, c)
  | (.ok s, c) => (.ok (show_cid s), c)

/-- `read_alt` (src/lib.rs lines 848-866), parameterized by the symbol
reader of the current recursion depth: no `Err` path, all element
failures are skipped. -/
def read_alt (readSym : Cursor → Except PgfError Symbol × Cursor) (c : Cursor) :
    Alt × Cursor :=
  match read_u32_or0 c with
  | (symbolCount, c) =>
    match readListLoop readSym symbolCount c [] with
    | (symbols, c) =>
      match read_u32_or0 c with
      | (tokenCount, c) =>
        match readListLoop readTokenElem tokenCount c [] with
        | (tokens, c) => (Alt.mk symbols tokens, c)

/-- The `Alt` list loop of the `SymKP` branch: `read_alt` never fails, so
every element is pushed. -/
def readAltsLoop (readSym : Cursor → Except PgfError Symbol × Cursor) :
    Nat → Cursor → List Alt → List Alt × Cursor
  | 0, c, acc => (acc, c)
  | n + 1, c, acc =>
    match read_alt readSym c with
    | (a, c) => readAltsLoop readSym n c (acc ++ [a])

/-- `cursor.read_i32().unwrap_or(0)` (the `SymCat`/`SymLit`/`SymVar`
payload reads). -/
def readI32or0 (c : Cursor) : Int × Cursor :=
  match read_i32 c with
  | (.error _, c) => (0, c)
  | (.ok n, c) => (n, c)

/-- `read_symbol` (src/lib.rs lines 802-846).  The `SymKP` branch recurses
through nested symbol and alternative lists; the recursion is bounded by
an ample fuel parameter (each nesting level consumes at least five bytes
of input, so `data.length + 1` fuel can never run out on the call paths
used below). -/
def read_symbol : Nat → Cursor → Except PgfError Symbol × Cursor
  | 0, c => (.error (.DeserializeError "symbol nesting exceeds input size"), c)
  | fuel + 1, c =>
    match read_u8 c with
    | (.error e, c) => (.error (.DeserializeError ("Failed to read symbol tag: " ++ e)), c)
    | (.ok tag, c) =>
      if tag = 0 then
        match readI32or0 c with
        | (n, c) =>
          match readI32or0 c with
          | (l, c) => (.ok (.SymCat n l), c)
      else if tag = 1 then
        match readI32or0 c with
        | (n, c) =>
          match readI32or0 c with
          | (l, c) => (.ok (.SymLit n l), c)
      else if tag = 2 then
        match readI32or0 c with
        | (n, c) =>
          match readI32or0 c with
          | (l, c) => (.ok (.SymVar n l), c)
      else if tag = 3 then
        match read_string c with
        | (.error e, c) => (.error e, c)
        | (.ok token, c) => (.ok (.SymKS (show_cid token)), c)
      else if tag = 4 then
        match read_u32_or0 c with
        | (symbolCount, c) =>
          match readListLoop (read_symbol fuel) symbolCount c [] with
          | (symbols, c) =>
            match read_u32_or0 c with
            | (altCount, c) =>
              match readAltsLoop (read_symbol fuel) altCount c [] with
              | (alts, c) => (.ok (.SymKP symbols alts), c)
      else if tag = 5 then (.ok .SymNE, c)
      else (.error (.DeserializeError ("Unknown symbol tag: " ++ toString tag)), c)

/-- The body loop of `read_sequences`: every sequence slot is pushed,
failed symbol reads inside a sequence are skipped. -/
def readSequencesLoop (fuel : Nat) :
    Nat → Cursor → List (List Symbol) → List (List Symbol) × Cursor
  | 0, c, acc => (acc, c)
  | n + 1, c, acc =>
    match read_u32_or0 c with
    | (symbolCount, c) =>
      match readListLoop (read_symbol fuel) symbolCount c [] with
      | (symbols, c) => readSequencesLoop fuel n c (acc ++ [symbols])

/-- `read_sequences` (src/lib.rs lines 784-800): no `Err` path. -/
def read_sequences (c : Cursor) : List (List Symbol) × Cursor :=
  match read_u32_or0 c with
  | (cnt, c) => readSequencesLoop (c.data.length + 1) cnt c []

/-- The body loop of `read_cnccats`: the name and both range bounds must
all read successfully for an entry to be inserted; any failure skips the
entry and the loop continues. -/
def readCncCatsLoop : Nat → Cursor → AList CId CncCat → AList CId CncCat × Cursor
  | 0, c, acc => (acc, c)
  | n + 1, c, acc =>
    match read_string c with
    | (.error _, c) => readCncCatsLoop n c acc
    | (.ok catName, c) =>
      match read_i32 c with
      | (startR, c) =>
        match read_i32 c with
        | (endR, c) =>
          match startR, endR with
          | .ok s, .ok e => readCncCatsLoop n c (ainsert acc catName { start := s, end_ := e })
          | _, _ => readCncCatsLoop n c acc

/-- `read_cnccats` (src/lib.rs lines 868-881): no `Err` path. -/
def read_cnccats (c : Cursor) : AList CId CncCat × Cursor :=
  match read_u32_or0 c with
  | (cnt, c) => readCncCatsLoop cnt c []

/-- `read_concrete` (src/lib.rs lines 672-699): none of its parts can
fail, and a failed `total_cats` read falls back to the number of concrete
categories. -/
def read_concrete (c : Cursor) : Concrete × Cursor :=
  match read_flags c with
  | (cflags, c) =>
    match read_productions c with
    | (productions, c) =>
      match read_cncfuns c with
      | (cncfuns, c) =>
        match read_sequences c with
        | (sequences, c) =>
          match read_cnccats c with
          | (cnccats, c) =>
            match read_i32 c with
            | (.error _, c) =>
              ({ cflags := cflags, productions := productions, cncfuns := cncfuns,
                 sequences := sequences, cnccats := cnccats,
                 total_cats := (cnccats.length : Int) }, c)
            | (.ok t, c) =>
              ({ cflags := cflags, productions := productions, cncfuns := cncfuns,
                 sequences := sequences, cnccats := cnccats, total_cats := t }, c)

/-- The body loop of `read_concretes`: a failed language-name read
propagates (the Rust code uses `?` there). -/
def readConcretesLoop :
    Nat → Cursor → AList Language Concrete →
    Except PgfError (AList Language Concrete) × Cursor
  | 0, c, acc => (.ok acc, c)
  | n + 1, c, acc =>
    match read_string c with
    | (.error e, c) => (.error e, c)
    | (.ok langName, c) =>
      match read_concrete c with
      | (cnc, c) => readConcretesLoop n c (ainsert acc langName cnc)

/-- `read_concretes` (src/lib.rs lines 656-670): the count read error is
propagated. -/
def read_concretes (c : Cursor) :
    Except PgfError (AList Language Concrete) × Cursor :=
  match read_u32 c with
  | (.error e, c) => (.error (.DeserializeError ("Failed to read concrete count: " ++ e)), c)
  | (.ok n, c) => readConcretesLoop n c []

/-- `parse_pgf_binary` (src/lib.rs lines 467-513).  Note: nothing checks
for remaining bytes after the final concrete. -/
def parse_pgf_binary (c : Cursor) : Except PgfError Pgf × Cursor :=
  match read_u16 c with
  | (.error e, c) => (.error (.DeserializeError ("Failed to read version: " ++ e)), c)
  | (.ok version, c) =>
    if version ≠ 2 then
      (.error (.DeserializeError ("Unsupported PGF version: " ++ toString version)), c)
    else
      match read_u16 c with
      | (.error e, c) => (.error (.DeserializeError ("Failed to read grammar count: " ++ e)), c)
      | (.ok numGrammars, c) =>
        if numGrammars ≠ 1 then
          (.error (.DeserializeError ("Expected 1 grammar, got " ++ toString numGrammars)), c)
        else
          match read_string_16 c with
          | (.error e, c) => (.error e, c)
          | (.ok absname, c) =>
            match read_flags c with
            | (flags, c) =>
              match read_abstract c with
              | (abs, c) =>
                match read_concretes c with
                | (.error e, c) => (.error e, c)
                | (.ok concretes, c) =>
                  (.ok { absname := absname, concretes := concretes, abstract := abs,
                         startcat :=
                           (((alookup flags (mk_cid "startcat")).bind (fun lit =>
                               match lit with
                               | .Str s => some (mk_cid s)
                               | _ => none)).getD
                             (((abs.cats.head?).map Prod.fst).getD (mk_cid "S"))),
                         flags := flags }, c)

/-- `parse_pgf` (src/lib.rs lines 462-465). -/
def parse_pgf (data : List UInt8) : Except PgfError Pgf :=
  (parse_pgf_binary { data := data, pos := 0 }).1

/-- Start-category resolution as the (amended) specification words it:
the string value of the global `startcat` flag when present, otherwise
the first category inserted into the abstract record, otherwise the
default identifier `S`. -/
def resolveStartcat (flags : AList CId Literal) (abs : Abstract) : CId :=
  match alookup flags (mk_cid "startcat") with
  | some (.Str s) => mk_cid s
  | _ =>
    match abs.cats with
    | [] => mk_cid "S"
    | (k, _) :: _ => k

/-- Did an `Except` computation succeed? -/
def exceptIsOk {ε α : Type} : Except ε α → Bool
  | .ok _ => true
  | .error _ => false

/-- The synthetic `Food` concrete of the repository's tests, extended
with one `Apply` production for fid 0 so that the goal category has a
seeded item. -/
def cncFoodProd : Concrete :=
  { cflags := []
    productions := [(0, [Production.Apply 0 []])]
    cncfuns := [{ name := "Pred", lins := [0] }, { name := "This", lins := [1] }]
    sequences := [[Symbol.SymKS "is"], [Symbol.SymKS "this"]]
    cnccats := [("Comment", { start := 0, end_ := 1 }), ("Item", { start := 1, end_ := 2 })]
    total_cats := 2 }

/-- The synthetic `Food` grammar (abstract part as in the repository's
`create_test_pgf`). -/
def gFoodProd : Pgf :=
  { absname := "Food"
    concretes := [("FoodEng", cncFoodProd)]
    abstract :=
      { funs :=
          [("Pred", { ty := Ty.mk [] "Comment" [], weight := 1, equations := none, prob := 0 }),
           ("This", { ty := Ty.mk [] "Item" [], weight := 1, equations := none, prob := 0 })]
        cats := [("Comment", { hypos := [], funs := [] }), ("Item", { hypos := [], funs := [] })] }
    startcat := "Comment"
    flags := [] }

/-- A concrete whose only function has two linearization fields. -/
def cncLins : Concrete :=
  { cflags := []
    productions := []
    cncfuns := [{ name := "F", lins := [0, 1] }]
    sequences := [[Symbol.SymKS "a"], [Symbol.SymKS "b"]]
    cnccats := []
    total_cats := 0 }

/-- A grammar around `cncLins`. -/
def gLins : Pgf :=
  { absname := "A"
    concretes := [("L", cncLins)]
    abstract := { funs := [], cats := [] }
    startcat := "S"
    flags := [] }

/-- A concrete carrying a `language` flag with an underscore. -/
def cncLang : Concrete :=
  { cflags := [("language", Literal.Str "en_US")]
    productions := []
    cncfuns := []
    sequences := []
    cnccats := []
    total_cats := 0 }

/-- A grammar around `cncLang`. -/
def gLang : Pgf :=
  { absname := "A"
    concretes := [("Eng", cncLang)]
    abstract := { funs := [], cats := [] }
    startcat := "S"
    flags := [] }

/-- A grammar whose only production applies fid 5 while `cncfuns` is
empty and sequence 0 is empty: completing the seeded item indexes
`cncfuns[5]` out of bounds. -/
def gBad : Pgf :=
  { absname := "B"
    concretes :=
      [("L",
        { cflags := []
          productions := [(0, [Production.Apply 5 []])]
          cncfuns := []
          sequences := [[]]
          cnccats := [("C", { start := 0, end_ := 0 })]
          total_cats := 1 })]
    abstract := { funs := [], cats := [] }
    startcat := "C"
    flags := [] }

/-- The ground type over category `C`. -/
def tC : Ty := Ty.mk [] "C" []

/-- The parse state `init_state gBad "L" tC` produces. -/
def sBad0 : ParseState :=
  { pgf := gBad, lang := "L", typ := tC
    activeItems := [(0, [{ fid := 5, seqid := 0, dot := 0, args := [], tree := none }])]
    passiveItems := [], tokens := [], currentPos := 0 }

/-- A 16-byte buffer the decoder accepts: version 2, one grammar, empty
abstract name, no flags, no abstract functions, no concretes. -/
def buf16 : List UInt8 :=
  [0, 2, 0, 1, 0, 0, 0, 0, 0, 0, 0, 0, 0, 0, 0, 0]

/-- The grammar decoded from `buf16`. -/
def g16 : Pgf :=
  { absname := "", concretes := [], abstract := { funs := [], cats := [] },
    startcat := "S", flags := [] }

/-- `buf16` with one trailing garbage byte. -/
def buf17 : List UInt8 := buf16 ++ [255]

/-- A buffer that ends (short read) inside the category-table body of its
single concrete: the concrete category count says 1 but no entry bytes
follow. -/
def bufShortCats : List UInt8 :=
  [0, 2, 0, 1, 0, 0, 0, 0, 0, 0, 0, 0, 0, 0, 0, 1, 1, 76,
   0, 0, 0, 0, 0, 0, 0, 0, 0, 0, 0, 0, 0, 0, 0, 0, 0, 1]

/-- The grammar decoded from `bufShortCats`: the concrete `L` with every
table empty. -/
def gShortCats : Pgf :=
  { absname := ""
    concretes :=
      [("L",
        { cflags := [], productions := [], cncfuns := [], sequences := [],
          cnccats := [], total_cats := 0 })]
    abstract := { funs := [], cats := [] }
    startcat := "S"
    flags := [] }

/-- The ground type over category `NoCat` (absent from every concrete). -/
def tNoCat : Ty := Ty.mk [] "NoCat" []

/-- The parse state `init_state gFoodProd "FoodEng" (start_cat gFoodProd)`
produces. -/
def sF0 : ParseState :=
  { pgf := gFoodProd, lang := "FoodEng", typ := start_cat gFoodProd
    activeItems := [(0, [{ fid := 0, seqid := 0, dot := 0, args := [], tree := none }])]
    passiveItems := [], tokens := [], currentPos := 0 }

theorem lins_tokens_eq (seqs : List (List Symbol)) (lins : List Int) :
    (lins.filterMap (fun i => seqs[usizeIdx i]?)).flatMap
      (fun seq => seq.filterMap symKSTok)
    = List.flatten (lins.map (fun i =>
        (seqs[usizeIdx i]?.getD []).filterMap symKSTok)) := by
  induction lins with
  | nil => rfl
  | cons i rest ih =>
    cases h : seqs[usizeIdx i]? <;> simp [List.filterMap_cons, h, ih]

theorem read_u16_at0 (b0 b1 : UInt8) (rest : List UInt8) :
    read_u16 { data := b0 :: b1 :: rest, pos := 0 }
      = (.ok (b0.toNat * 256 + b1.toNat), { data := b0 :: b1 :: rest, pos := 2 }) := rfl

theorem read_u16_at2 (b0 b1 b2 b3 : UInt8) (rest : List UInt8) :
    read_u16 { data := b0 :: b1 :: b2 :: b3 :: rest, pos := 2 }
      = (.ok (b2.toNat * 256 + b3.toNat),
         { data := b0 :: b1 :: b2 :: b3 :: rest, pos := 4 }) := rfl

theorem read_u16_at2_short2 (b0 b1 : UInt8) :
    read_u16 { data := [b0, b1], pos := 2 }
      = (.error "failed to fill whole buffer", { data := [b0, b1], pos := 2 }) := rfl

theorem read_u16_at2_short3 (b0 b1 b2 : UInt8) :
    read_u16 { data := [b0, b1, b2], pos := 2 }
      = (.error "failed to fill whole buffer", { data := [b0, b1, b2], pos := 3 }) := rfl

theorem read_u16_at0_short0 :
    read_u16 { data := [], pos := 0 }
      = (.error "failed to fill whole buffer", { data := [], pos := 0 }) := rfl

theorem read_u16_at0_short1 (b0 : UInt8) :
    read_u16 { data := [b0], pos := 0 }
      = (.error "failed to fill whole buffer", { data := [b0], pos := 1 }) := rfl

theorem linearize_eq_linSpec (g : Pgf) (l : Language) :
    (e : Expr) → linearize g l e = linSpec g l e
  | .Fun cid => by
    cases hc : alookup g.concretes l with
    | none => simp [linearize, linSpec, hc]
    | some cnc =>
      cases hf : cnc.cncfuns.find? (fun f => f.name = cid) with
      | none => simp [linearize, linSpec, hc, hf]
      | some f => simp [linearize, linSpec, hc, hf, lins_tokens_eq]
  | .App e1 e2 => by
    have h1 := linearize_eq_linSpec g l e1
    have h2 := linearize_eq_linSpec g l e2
    cases hc : alookup g.concretes l with
    | none => simp [linearize, linSpec, hc]
    | some cnc =>
      simp only [linearize, linSpec, hc]
      rw [h1, h2]
  | .Abs b v body => by cases hc : alookup g.concretes l <;> simp [linearize, linSpec, hc]
  | .Str s => by cases hc : alookup g.concretes l <;> simp [linearize, linSpec, hc]
  | .Int n => by cases hc : alookup g.concretes l <;> simp [linearize, linSpec, hc]
  | .Float b => by cases hc : alookup g.concretes l <;> simp [linearize, linSpec, hc]
  | .Double b => by cases hc : alookup g.concretes l <;> simp [linearize, linSpec, hc]
  | .Meta => by cases hc : alookup g.concretes l <;> simp [linearize, linSpec, hc]
  | .Typed e t => by cases hc : alookup g.concretes l <;> simp [linearize, linSpec, hc]
  | .ImplArg e => by cases hc : alookup g.concretes l <;> simp [linearize, linSpec, hc]

theorem init_state_fields (g : Pgf) (l : Language) (t : Ty) (s : ParseState)
    (h : init_state g l t = .ok s) :
    s.pgf = g ∧ s.lang = l ∧ ∃ cnc, alookup g.concretes l = some cnc := by
  unfold init_state at h
  split at h
  · simp at h
  · rename_i cnc hcnc
    split at h
    · simp at h
    · injection h with h'
      subst h'
      exact ⟨rfl, rfl, cnc, hcnc⟩

theorem next_state_fields (s : ParseState) (tok : String) (s' : ParseState)
    (h : next_state s tok = .ok s') : s'.pgf = s.pgf ∧ s'.lang = s.lang := by
  unfold next_state at h
  split at h
  · simp at h
  · simp only [] at h
    split at h
    · simp at h
    · split at h
      · simp at h
      · injection h with h'
        subst h'
        exact ⟨rfl, rfl⟩

theorem run_tokens_fields (ts : List String) :
    ∀ s s' : ParseState, run_tokens s ts = .ok s' →
      s'.pgf = s.pgf ∧ s'.lang = s.lang := by
  induction ts with
  | nil =>
    intro s s' h
    unfold run_tokens at h
    injection h with h'
    subst h'
    exact ⟨rfl, rfl⟩
  | cons t rest ih =>
    intro s s' h
    unfold run_tokens at h
    split at h
    · rename_i st hst
      obtain ⟨h1, h2⟩ := ih st s' h
      obtain ⟨h3, h4⟩ := next_state_fields s t st hst
      exact ⟨h1.trans h3, h2.trans h4⟩
    · simp at h
    · simp at h

theorem next_state_no_err (s : ParseState) (tok : String)
    (hsome : (alookup s.pgf.concretes s.lang).isSome) (e : PgfError) :
    next_state s tok ≠ .err e := by
  intro h
  unfold next_state at h
  split at h
  · rename_i hnone
    rw [hnone] at hsome
    simp at hsome
  · simp only [] at h
    split at h
    · simp at h
    · split at h
      · simp at h
      · simp at h

/-- C1: the specification's round-trip invariant says that parsing the
linearization of `Fun(f)` (first linearization non-empty, all `SymKS`)
succeeds and yields `Fun(f)`; on the code, completing an item is deferred
to the step after its last token, so the final item never reaches the
passive table and `parse` fails: on the Food grammar, `linearize` of
`Fun "Pred"` is `"is"` yet `parse` of `"is"` at the start category
returns a parse error instead of `[Fun "Pred"]`. -/
theorem C1_parse_linearize_roundtrip_fails :
    linearize gFoodProd "FoodEng" (Expr.Fun "Pred") = .ok "is" ∧
    parse gFoodProd "FoodEng" (start_cat gFoodProd) "is"
      = .err (.ParseError "Parsing failed") :=
  ⟨rfl, rfl⟩

/-- C2 counterexample: the claim says `linearize(g, l, Fun(f))` emits only
the tokens of the sequence addressed by `lins[0]`; on a function with
`lins = [0, 1]` over sequences `[[SymKS "a"], [SymKS "b"]]` the code
returns `"a b"`, not `"a"`. -/
theorem C2_cex :
    linearize gLins "L" (Expr.Fun "F") = .ok "a b" ∧ ("a b" : String) ≠ "a" :=
  ⟨rfl, by decide⟩

/-- C2 (amended): `linearize(g, l, Fun(f))` returns the `SymKS` tokens of
the sequences addressed by every in-range linearization field of the
first `CncFun` named `f`, concatenated in field order and joined by
single spaces; `linearize(g, l, App(h, a))` returns `linearize(h)`, a
space, `linearize(a)`; any other expression is an error (and an unknown
language is an `UnknownLanguage` error for every expression). -/
theorem C2_thm (g : Pgf) (l : Language) (e : Expr) :
    linearize g l e = linSpec g l e :=
  linearize_eq_linSpec g l e

/-- C6: `init_state` on an unknown language yields `UnknownLanguage`
carrying the language identifier; on a known language whose concrete has
no entry for the queried category it yields `ParseError` prefixed
`Category not found:` followed by the category identifier. -/
theorem C6_thm (g : Pgf) (l : Language) (t : Ty) :
    (alookup g.concretes l = none →
      init_state g l t = .error (.UnknownLanguage (show_cid l))) ∧
    (∀ cnc, alookup g.concretes l = some cnc →
      alookup cnc.cnccats t.category = none →
      init_state g l t
        = .error (.ParseError ("Category not found: " ++ show_cid t.category))) := by
  constructor
  · intro h
    simp [init_state, h]
  · intro cnc hc hcat
    simp [init_state, hc, hcat]

theorem C6_witness :
    init_state gFoodProd "NonExistentLang" tC
      = .error (.UnknownLanguage (show_cid "NonExistentLang")) ∧
    init_state gFoodProd "FoodEng" tNoCat
      = .error (.ParseError ("Category not found: " ++ show_cid tNoCat.category)) :=
  ⟨(C6_thm gFoodProd "NonExistentLang" tC).1 rfl,
   (C6_thm gFoodProd "FoodEng" tNoCat).2 cncFoodProd rfl rfl⟩

/-- C9 counterexample: the claim says `next_state` always returns `Ok` on
states produced by `init_state`; on a grammar whose production applies
fid 5 while `cncfuns` is empty and sequence 0 is empty, the completion
branch indexes `cncfuns[5]` and panics instead. -/
theorem C9_cex :
    init_state gBad "L" tC = .ok sBad0 ∧
    next_state sBad0 "x" = .panic "index out of bounds" :=
  ⟨rfl, rfl⟩

/-- C9 (amended): for every state produced by `init_state` and advanced
by any number of `next_state` calls, `next_state` never returns an error:
the internal `Language not found` branch is unreachable because
`init_state` only constructs states whose language is a key of the stored
grammar's concretes and no operation removes it; `next_state` may still
panic (out-of-bounds fid during completion), but it has no reachable
`Err`. -/
theorem C9_thm (g : Pgf) (l : Language) (t : Ty) (ts : List String)
    (s0 s : ParseState) (tok : String) (e : PgfError)
    (h0 : init_state g l t = .ok s0) (h1 : run_tokens s0 ts = .ok s) :
    next_state s tok ≠ .err e := by
  obtain ⟨hp, hl, cnc0, hcnc0⟩ := init_state_fields g l t s0 h0
  obtain ⟨hp2, hl2⟩ := run_tokens_fields ts s0 s h1
  apply next_state_no_err
  rw [hp2, hl2, hp, hl, hcnc0]
  rfl

theorem C9_witness :
    next_state sF0 "this" ≠ .err (.ParseError "Language not found") :=
  C9_thm gFoodProd "FoodEng" (start_cat gFoodProd) [] sF0 sF0 "this"
    (.ParseError "Language not found") rfl rfl

/-- C10: on every state produced by `init_state` (and advanced by
`next_state`), `get_parse_output` never errors or panics, for every
queried type; when the type's category is absent from the concrete's
`cnccats` it silently uses fid 0 as the goal and reports the trees
collected for fid 0. -/
theorem C10_thm (g : Pgf) (l : Language) (t0 : Ty) (ts : List String)
    (s0 s : ParseState) (t : Ty) (d : Option Int)
    (h0 : init_state g l t0 = .ok s0) (h1 : run_tokens s0 ts = .ok s) :
    (∃ r, get_parse_output s t d = .ok r) ∧
    (∀ cnc, alookup s.pgf.concretes s.lang = some cnc →
      alookup cnc.cnccats t.category = none →
      get_parse_output s t d
        = .ok (mkOutput (collectTrees cnc s.passiveItems 0) t.category)) := by
  obtain ⟨hp, hl, cnc0, hcnc0⟩ := init_state_fields g l t0 s0 h0
  obtain ⟨hp2, hl2⟩ := run_tokens_fields ts s0 s h1
  have hsome : alookup s.pgf.concretes s.lang = some cnc0 := by
    rw [hp2, hl2, hp, hl]
    exact hcnc0
  constructor
  · exact ⟨mkOutput (collectTrees cnc0 s.passiveItems
        (((alookup cnc0.cnccats t.category).map CncCat.start).getD 0)) t.category,
      by simp [get_parse_output, hsome]⟩
  · intro cnc hcnc hcat
    have hc0 : cnc = cnc0 := by
      rw [hsome] at hcnc
      injection hcnc with h'
      exact h'.symm
    subst hc0
    simp [get_parse_output, hsome, hcat]

theorem C10_witness :
    get_parse_output sF0 tNoCat none
      = .ok (mkOutput (collectTrees cncFoodProd sF0.passiveItems 0) tNoCat.category) :=
  (C10_thm gFoodProd "FoodEng" (start_cat gFoodProd) [] sF0 sF0 tNoCat none rfl rfl).2
    cncFoodProd rfl rfl

theorem startcat_expr_eq (flags : AList CId Literal) (abs : Abstract) :
    (((alookup flags (mk_cid "startcat")).bind (fun lit =>
        match lit with
        | Literal.Str s => some (mk_cid s)
        | _ => none)).getD
      (((abs.cats.head?).map Prod.fst).getD (mk_cid "S")))
    = resolveStartcat flags abs := by
  cases hl : alookup flags (mk_cid "startcat") with
  | none =>
    cases habs : abs.cats with
    | nil => simp [resolveStartcat, hl, habs]
    | cons p rest =>
      obtain ⟨k, v⟩ := p
      simp [resolveStartcat, hl, habs]
  | some lit =>
    cases lit with
    | Str s => simp [resolveStartcat, hl]
    | Int n =>
      cases habs : abs.cats with
      | nil => simp [resolveStartcat, hl, habs]
      | cons p rest =>
        obtain ⟨k, v⟩ := p
        simp [resolveStartcat, hl, habs]
    | Flt b =>
      cases habs : abs.cats with
      | nil => simp [resolveStartcat, hl, habs]
      | cons p rest =>
        obtain ⟨k, v⟩ := p
        simp [resolveStartcat, hl, habs]

theorem parse_pgf_binary_startcat (c0 : Cursor) (g : Pgf) (c1 : Cursor)
    (h : parse_pgf_binary c0 = (.ok g, c1)) :
    g.startcat = resolveStartcat g.flags g.abstract := by
  unfold parse_pgf_binary at h
  split at h
  · simp at h
  · split at h
    · simp at h
    · split at h
      · simp at h
      · split at h
        · simp at h
        · split at h
          · simp at h
          · split at h
            split at h
            split at h
            · simp at h
            · simp only [Prod.mk.injEq] at h
              obtain ⟨h2, -⟩ := h
              injection h2 with h3
              subst h3
              exact startcat_expr_eq _ _

/-- C4 counterexample: the claim says that for every accepted buffer the
start category is the `startcat` flag value or the first category
inserted into the abstract record; `buf16` is accepted with no flags and
no categories at all, and the resulting start category is the default
`S`, which was never inserted. -/
theorem C4_cex :
    parse_pgf buf16 = .ok g16 ∧ g16.flags = [] ∧ g16.abstract.cats = [] ∧
    g16.startcat = mk_cid "S" :=
  ⟨rfl, rfl, rfl, rfl⟩

/-- C4 (amended): for every accepted buffer, the grammar's start category
is the string value of the global `startcat` flag when present with a
string literal value, otherwise the first category inserted into the
abstract record (in the insertion-ordered model of the source's hash
map), otherwise the default identifier `S` when the abstract record has
no categories. -/
theorem C4_thm (data : List UInt8) (g : Pgf) (h : parse_pgf data = .ok g) :
    g.startcat = resolveStartcat g.flags g.abstract := by
  unfold parse_pgf at h
  have hpair : parse_pgf_binary { data := data, pos := 0 }
      = (Except.ok g, (parse_pgf_binary { data := data, pos := 0 }).2) := by
    rw [← h]
  exact parse_pgf_binary_startcat { data := data, pos := 0 } g
    (parse_pgf_binary { data := data, pos := 0 }).2 hpair

theorem C4_witness :
    parse_pgf buf16 = .ok g16 ∧
    g16.startcat = resolveStartcat g16.flags g16.abstract :=
  ⟨rfl, C4_thm buf16 g16 rfl⟩

/-- C5: a leading u16 version different from the supported major (2)
yields a `DeserializeError`, a grammar count different from 1 yields a
`DeserializeError`, and in particular the bytes `[0x00,0x01,0x02,0x03]`
yield a `DeserializeError`; the decoder is total, so no panic and no
partial grammar. -/
theorem C5_thm :
    (∀ (b0 b1 : UInt8) (rest : List UInt8), b0.toNat * 256 + b1.toNat ≠ 2 →
      parse_pgf (b0 :: b1 :: rest)
        = .error (.DeserializeError
            ("Unsupported PGF version: " ++ toString (b0.toNat * 256 + b1.toNat)))) ∧
    (∀ (b0 b1 b2 b3 : UInt8) (rest : List UInt8),
      b0.toNat * 256 + b1.toNat = 2 → b2.toNat * 256 + b3.toNat ≠ 1 →
      parse_pgf (b0 :: b1 :: b2 :: b3 :: rest)
        = .error (.DeserializeError
            ("Expected 1 grammar, got " ++ toString (b2.toNat * 256 + b3.toNat)))) ∧
    parse_pgf [0, 1, 2, 3] = .error (.DeserializeError "Unsupported PGF version: 1") := by
  refine ⟨?_, ?_, rfl⟩
  · intro b0 b1 rest hv
    simp [parse_pgf, parse_pgf_binary, read_u16_at0, hv]
  · intro b0 b1 b2 b3 rest hv hn
    simp [parse_pgf, parse_pgf_binary, read_u16_at0, read_u16_at2, hv, hn]

theorem C5_witness :
    parse_pgf ((0 : UInt8) :: (3 : UInt8) :: [])
      = .error (.DeserializeError
          ("Unsupported PGF version: "
            ++ toString ((0 : UInt8).toNat * 256 + (3 : UInt8).toNat))) ∧
    parse_pgf ((0 : UInt8) :: (2 : UInt8) :: (0 : UInt8) :: (2 : UInt8) :: [])
      = .error (.DeserializeError
          ("Expected 1 grammar, got "
            ++ toString ((0 : UInt8).toNat * 256 + (2 : UInt8).toNat))) :=
  ⟨C5_thm.1 0 3 [] (by decide), C5_thm.2.1 0 2 0 2 [] (by decide) (by decide)⟩

/-- C3 counterexample: the claim says a short read inside a category
table body yields a `DeserializeError` and no grammar is ever returned
from such bytes; `bufShortCats` ends inside its concrete's category
table (count 1, no entry bytes) yet the decoder returns a grammar. -/
theorem C3_cex : parse_pgf bufShortCats = .ok gShortCats := rfl

/-- C3 (amended): a short read in the version or grammar-count header
yields a `DeserializeError`, but the decoder catches parse errors from
nested constructs inside flag tables, the abstract function table,
productions, concrete functions, sequences and category tables and
continues with default values, so a grammar can be returned despite a
short read inside those bodies. -/
theorem C3_thm :
    (∀ data : List UInt8, data.length < 4 →
      ∃ m, parse_pgf data = .error (.DeserializeError m)) ∧
    exceptIsOk (parse_pgf bufShortCats) = true := by
  refine ⟨?_, rfl⟩
  intro data hlen
  rcases data with _ | ⟨b0, _ | ⟨b1, _ | ⟨b2, _ | ⟨b3, rest⟩⟩⟩⟩
  · exact ⟨"Failed to read version: failed to fill whole buffer", rfl⟩
  · exact ⟨"Failed to read version: failed to fill whole buffer", rfl⟩
  · by_cases hv : b0.toNat * 256 + b1.toNat = 2
    · refine ⟨"Failed to read grammar count: failed to fill whole buffer", ?_⟩
      simp [parse_pgf, parse_pgf_binary, read_u16_at0, read_u16_at2_short2, hv]
    · refine ⟨"Unsupported PGF version: " ++ toString (b0.toNat * 256 + b1.toNat), ?_⟩
      simp [parse_pgf, parse_pgf_binary, read_u16_at0, hv]
  · by_cases hv : b0.toNat * 256 + b1.toNat = 2
    · refine ⟨"Failed to read grammar count: failed to fill whole buffer", ?_⟩
      simp [parse_pgf, parse_pgf_binary, read_u16_at0, read_u16_at2_short3, hv]
    · refine ⟨"Unsupported PGF version: " ++ toString (b0.toNat * 256 + b1.toNat), ?_⟩
      simp [parse_pgf, parse_pgf_binary, read_u16_at0, hv]
  · simp at hlen
    omega

theorem C3_witness :
    ([(0 : UInt8)] : List UInt8).length < 4 ∧
    ∃ m, parse_pgf [(0 : UInt8)] = .error (.DeserializeError m) :=
  ⟨by decide, C3_thm.1 [0] (by decide)⟩

/-- C7 counterexample: the claim says trailing bytes after the final
concrete are an error; `buf17` is `buf16` plus one trailing byte, and the
decoder still returns the grammar. -/
theorem C7_cex : parse_pgf buf17 = .ok g16 := rfl

/-- C7 (amended): the decoder never checks for exhaustion: it can return
a grammar while bytes remain after the final concrete, as on `buf17`
where decoding succeeds with the cursor one byte short of the end. -/
theorem C7_thm :
    (parse_pgf_binary { data := buf17, pos := 0 }).1 = .ok g16 ∧
    (parse_pgf_binary { data := buf17, pos := 0 }).2.pos < buf17.length :=
  ⟨rfl, by decide⟩

/-- C8: `language_code` returns the string value of the concrete's
`language` flag with every underscore replaced by a hyphen, and is absent
when the language is unknown, the flag is missing, or its value is not a
string literal. -/
theorem C8_thm (g : Pgf) (l : Language) :
    (alookup g.concretes l = none → language_code g l = none) ∧
    (∀ cnc, alookup g.concretes l = some cnc →
      ((alookup cnc.cflags (mk_cid "language") = none → language_code g l = none) ∧
       (∀ n, alookup cnc.cflags (mk_cid "language") = some (.Int n) →
         language_code g l = none) ∧
       (∀ bits, alookup cnc.cflags (mk_cid "language") = some (.Flt bits) →
         language_code g l = none) ∧
       (∀ s, alookup cnc.cflags (mk_cid "language") = some (.Str s) →
         language_code g l = some (replaceUnderscores s)))) := by
  refine ⟨fun h => by simp [language_code, h],
    fun cnc hc => ⟨fun h => ?_, fun n h => ?_, fun bits h => ?_, fun s h => ?_⟩⟩ <;>
    simp [language_code, hc, h]

theorem C8_witness :
    language_code gLang "Eng" = some "en-US" ∧ language_code gLang "Ger" = none := by
  constructor
  · have h := ((C8_thm gLang "Eng").2 cncLang rfl).2.2.2 "en_US" rfl
    exact h.trans rfl
  · exact (C8_thm gLang "Ger").1 rfl

end Pgf2Json
